import Mathlib

/-!
Verification of the evaluation record store from `mlflow/evaluation/fluent.py`.

The Python module is shallowly embedded: pandas DataFrames become Lean lists of
row structures, the MLflow artifact/metric collaborators become an explicit
`RunStore` state plus an event trace, and raised exceptions become `Except`
values.  Utilities imported by `fluent.py` from `mlflow/evaluation/utils.py`
and the entity constructors from `mlflow/evaluation/evaluation.py` are not part
of the source under examination; each such definition carries a doc comment
starting `Modelled from the spec:` and follows the specification's wording.
-/

set_option autoImplicit false

namespace MlflowEval

/-- The value type discriminant of an assessment: boolean, numeric or string. -/
inductive ValueType where
  | boolean
  | numeric
  | string
deriving DecidableEq, Repr

/-- An assessment value is exactly one of boolean, numeric or string.
Numeric values are embedded as integers; no claim computes with the numeric
magnitude, only with the value-type discriminant. -/
inductive AssessmentValue where
  | vBool (b : Bool)
  | vNum (n : Int)
  | vStr (s : String)
deriving DecidableEq, Repr

/-- `Assessment.get_value_type`: the discriminant of the stored value. -/
def AssessmentValue.valueType : AssessmentValue → ValueType
  | .vBool _ => .boolean
  | .vNum _ => .numeric
  | .vStr _ => .string

/-- The source of an assessment: a variant tag (human / AI judge / code)
together with a `source_id`.  `source.to_dictionary()` equality in the Python
code corresponds to structural equality here. -/
structure Source where
  sourceType : String
  sourceId : String
deriving DecidableEq, Repr

/-- A caller-side assessment (`mlflow.evaluation.evaluation.Assessment`):
name, source, value and optional rationale; the `evaluation_id` is stamped
only when the assessment is converted to an entity. -/
structure Assessment where
  name : String
  source : Source
  value : AssessmentValue
  rationale : Option String := none
deriving DecidableEq, Repr

/-- An assessment entity / row of the assessments table: an `Assessment`
together with the `evaluation_id` foreign key. -/
structure AssessmentRow where
  evaluation_id : String
  name : String
  source : Source
  value : AssessmentValue
  rationale : Option String := none
deriving DecidableEq, Repr

/-- `Assessment._to_entity(evaluation_id=...)`: stamp the evaluation id. -/
def Assessment.toRow (a : Assessment) (evaluation_id : String) : AssessmentRow :=
  { evaluation_id := evaluation_id, name := a.name, source := a.source,
    value := a.value, rationale := a.rationale }

/-- A metric record (`mlflow.entities.Metric`).  The Python value is a float;
no claim computes with metric values, so it is embedded as an integer. -/
structure Metric where
  key : String
  value : Int
  timestamp : Int
  step : Int := 0
deriving DecidableEq, Repr

/-- A row of the metrics table: a metric tagged with its parent evaluation. -/
structure MetricRow where
  evaluation_id : String
  key : String
  value : Int
  timestamp : Int
  step : Int
deriving DecidableEq, Repr

/-- A row of the evaluations table.  `inputs` / `outputs` / `targets` are
ordered string-keyed mappings; their values are opaque to every claim and are
embedded as strings. -/
structure EvaluationRow where
  evaluation_id : String
  run_id : String
  inputs : List (String × String)
  outputs : List (String × String)
  inputs_id : Option String := none
  request_id : Option String := none
  targets : Option (List (String × String)) := none
deriving DecidableEq, Repr, Inhabited

/-- A caller-side `Evaluation` object (ids not yet assigned). -/
structure Evaluation where
  inputs : List (String × String)
  outputs : List (String × String)
  inputs_id : Option String := none
  request_id : Option String := none
  targets : Option (List (String × String)) := none
  assessments : List Assessment := []
  metrics : List Metric := []
deriving DecidableEq, Repr

/-- A fully identified evaluation entity (`mlflow.entities.Evaluation`):
its table row plus its owned metrics and assessment entities. -/
structure EvaluationEntity where
  row : EvaluationRow
  metrics : List Metric
  assessments : List AssessmentRow
deriving DecidableEq, Repr, Inhabited

/-- `Evaluation._to_entity(run_id=..., evaluation_id=...)`: stamp the run id
and the freshly generated evaluation id into the record and its assessments. -/
def Evaluation.toEntity (ev : Evaluation) (run_id evaluation_id : String) :
    EvaluationEntity :=
  { row := { evaluation_id := evaluation_id, run_id := run_id,
             inputs := ev.inputs, outputs := ev.outputs,
             inputs_id := ev.inputs_id, request_id := ev.request_id,
             targets := ev.targets },
    metrics := ev.metrics,
    assessments := ev.assessments.map (·.toRow evaluation_id) }

/-- Protobuf error codes used by `fluent.py` when raising `MlflowException`. -/
inductive ErrorCode where
  | INVALID_PARAMETER_VALUE
  | RESOURCE_DOES_NOT_EXIST
  | INTERNAL_ERROR
deriving DecidableEq, Repr

/-- The failures the embedded operations can raise.  Each constructor records
which Python exception it stands for. -/
inductive Err where
  /-- `MlflowException(INVALID_PARAMETER_VALUE)` from `log_evaluation` line 69:
  the assessments list starts with a dict but not all elements are dicts. -/
  | mixedDictObject
  /-- Plain `ValueError` from `log_assessments` line 225: the assessments list
  contains a dict but not all elements are dicts. -/
  | mixedDictObjectValueError
  /-- `MlflowException(INVALID_PARAMETER_VALUE)` from
  `verify_assessments_have_same_value_type`: the batch mixes value types for
  one name. -/
  | batchTypeMismatch
  /-- `MlflowException(INVALID_PARAMETER_VALUE)` from `_add_assessment_to_df`
  lines 280-285, naming the assessment and both conflicting value types
  (the incoming type and the type of the existing assessments). -/
  | typeConflict (name : String) (newType existingType : ValueType)
  /-- `MlflowException(RESOURCE_DOES_NOT_EXIST)` from `get_evaluation`
  lines 351-355: the run lacks one of the three tables. -/
  | runMissingTables
  /-- `MlflowException(RESOURCE_DOES_NOT_EXIST)` from `get_evaluation`
  lines 362-365: no evaluations-table row has the requested id. -/
  | evaluationNotFound
  /-- `MlflowException(INTERNAL_ERROR)` from `get_evaluation` lines 378-382,
  reporting the observed number of reconstructed evaluations. -/
  | reconstructionCount (found : Nat)
  /-- Python `AttributeError`: `get_value_type` invoked on a dict element that
  slipped past the form check in `log_evaluation`. -/
  | attributeError
deriving DecidableEq, Repr

/-- The MLflow error code carried by each failure; `none` for plain Python
exceptions (`ValueError`, `AttributeError`) that are not `MlflowException`s. -/
def Err.errorCode : Err → Option ErrorCode
  | .mixedDictObject => some .INVALID_PARAMETER_VALUE
  | .mixedDictObjectValueError => none
  | .batchTypeMismatch => some .INVALID_PARAMETER_VALUE
  | .typeConflict _ _ _ => some .INVALID_PARAMETER_VALUE
  | .runMissingTables => some .RESOURCE_DOES_NOT_EXIST
  | .evaluationNotFound => some .RESOURCE_DOES_NOT_EXIST
  | .reconstructionCount _ => some .INTERNAL_ERROR
  | .attributeError => none

/-- The boolean mask of `fluent.py` lines 266-269: rows whose `evaluation_id`
and `name` match the incoming assessment. -/
def matchesName (evaluation_id : String) (assessment : AssessmentRow)
    (r : AssessmentRow) : Bool :=
  r.evaluation_id == evaluation_id && r.name == assessment.name

/-- The boolean mask of `fluent.py` lines 288-292: rows whose `evaluation_id`,
`name` and `source` all match the incoming assessment. -/
def matchesKey (evaluation_id : String) (assessment : AssessmentRow)
    (r : AssessmentRow) : Bool :=
  r.evaluation_id == evaluation_id && r.name == assessment.name
    && r.source == assessment.source

/-- Modelled from the spec: `append_to_assessments_dataframe` lives in
`mlflow/evaluation/utils.py`, which is not in the source under examination.
Per §4.3 step 3 of the spec it appends the new rows to the table. -/
def append_to_assessments_dataframe (df : List AssessmentRow)
    (rows : List AssessmentRow) : List AssessmentRow :=
  df ++ rows

/-- `_add_assessment_to_df` (`fluent.py` lines 250-306): the assessment merge
engine.  Selects rows matching `(evaluation_id, name)`; if any exists with a
value type different from the incoming assessment's, raises a type conflict
naming the incoming type and the type of the first existing row.  Otherwise
rows additionally matching `source` are overwritten in place with the new
fields (re-stamping `evaluation_id`); when none matches, the row is appended.
The Python code runs the `all` value-type check only when the name-matching
subset is nonempty; on an empty subset `all` is vacuously true, so a single
`if` on the `all` is equivalent. -/
def _add_assessment_to_df (assessments_df : List AssessmentRow)
    (assessment : AssessmentRow) (evaluation_id : String) :
    Except Err (List AssessmentRow) :=
  if (assessments_df.filter (matchesName evaluation_id assessment)).all
      (fun r => assessment.value.valueType == r.value.valueType) then
    .ok (if assessments_df.any (matchesKey evaluation_id assessment) then
           assessments_df.map fun r =>
             if matchesKey evaluation_id assessment r then
               { assessment with evaluation_id := evaluation_id }
             else r
         else append_to_assessments_dataframe assessments_df [assessment])
  else
    .error (.typeConflict assessment.name assessment.value.valueType
      (((assessments_df.filter (matchesName evaluation_id assessment)).headD
          assessment).value.valueType))

/-- The per-`(evaluation_id, name)` value-type invariant of the assessments
table (spec §3): all rows sharing evaluation id and name share a value type. -/
def tableTypeInvariant (df : List AssessmentRow) : Prop :=
  ∀ r ∈ df, ∀ s ∈ df, r.evaluation_id = s.evaluation_id → r.name = s.name →
    r.value.valueType = s.value.valueType

/-- First-occurrence deduplication with an accumulator of already-seen keys;
models iterating a Python `set` / pandas `unique()` up to order (claims only
count occurrences). -/
def uniqueAux {α : Type} [DecidableEq α] : List α → List α → List α
  | _, [] => []
  | seen, x :: xs =>
      if x ∈ seen then uniqueAux seen xs else x :: uniqueAux (x :: seen) xs

/-- The distinct elements of a list, first occurrences first. -/
def uniqueFirst {α : Type} [DecidableEq α] (l : List α) : List α :=
  uniqueAux [] l

theorem mem_uniqueAux {α : Type} [DecidableEq α] (l : List α) (seen : List α)
    (a : α) : a ∈ uniqueAux seen l ↔ a ∈ l ∧ a ∉ seen := by
  induction l generalizing seen with
  | nil => simp [uniqueAux]
  | cons x xs ih =>
      simp only [uniqueAux]
      by_cases hx : x ∈ seen
      · rw [if_pos hx, ih]
        simp only [List.mem_cons]
        constructor
        · exact fun h => ⟨Or.inr h.1, h.2⟩
        · rintro ⟨rfl | h1, h2⟩
          · exact absurd hx h2
          · exact ⟨h1, h2⟩
      · rw [if_neg hx]
        simp only [List.mem_cons, ih]
        constructor
        · rintro (rfl | ⟨h1, h2⟩)
          · exact ⟨Or.inl rfl, hx⟩
          · exact ⟨Or.inr h1, fun hs => h2 (Or.inr hs)⟩
        · rintro ⟨rfl | h1, h2⟩
          · exact Or.inl rfl
          · by_cases hax : a = x
            · exact Or.inl hax
            · refine Or.inr ⟨h1, fun hs => ?_⟩
              rcases hs with h | h
              · exact hax h
              · exact h2 h

theorem nodup_uniqueAux {α : Type} [DecidableEq α] (l : List α)
    (seen : List α) : (uniqueAux seen l).Nodup := by
  induction l generalizing seen with
  | nil => simp [uniqueAux]
  | cons x xs ih =>
      simp only [uniqueAux]
      by_cases hx : x ∈ seen
      · rw [if_pos hx]; exact ih _
      · rw [if_neg hx, List.nodup_cons]
        refine ⟨fun hmem => ?_, ih _⟩
        exact ((mem_uniqueAux _ _ _).mp hmem).2 (List.mem_cons_self _ _)

theorem mem_uniqueFirst {α : Type} [DecidableEq α] (l : List α) (a : α) :
    a ∈ uniqueFirst l ↔ a ∈ l := by
  simp [uniqueFirst, mem_uniqueAux]

theorem nodup_uniqueFirst {α : Type} [DecidableEq α] (l : List α) :
    (uniqueFirst l).Nodup :=
  nodup_uniqueAux l []

/-- The persisted state of one run: the three optional table artifacts
(`_evaluations.json`, `_metrics.json`, `_assessments.json`); `none` means the
artifact does not exist on the run. -/
structure RunStore where
  evaluations : Option (List EvaluationRow) := none
  metrics : Option (List MetricRow) := none
  assessments : Option (List AssessmentRow) := none
deriving DecidableEq, Repr

/-- Observable interactions of the store with its external collaborators, in
program order.  `logMetricBatch n s g` is one `client.log_batch` call logging
the statistics computed for assessment name `n` and source `s` from the group
of rows `g`; `statsFor n` is one `compute_assessment_stats_by_source` call. -/
inductive Ev where
  | listArtifacts
  | readEvaluations
  | readMetrics
  | readAssessments
  | writeEvaluations (df : List EvaluationRow)
  | writeMetrics (df : List MetricRow)
  | writeAssessments (df : List AssessmentRow)
  | reconstruct
  | statsFor (name : String)
  | logMetricBatch (name : String) (source : Source) (group : List AssessmentRow)
deriving DecidableEq, Repr

/-- Whether an event is the stats computation for assessment name `n`. -/
def Ev.isStatsFor (n : String) : Ev → Bool
  | .statsFor m => m == n
  | _ => false

/-- Whether an event is a metric-batch log for assessment name `n`. -/
def Ev.isBatchFor (n : String) : Ev → Bool
  | .logMetricBatch m _ _ => m == n
  | _ => false

/-- Whether an event writes a table artifact. -/
def Ev.isWrite : Ev → Bool
  | .writeEvaluations _ => true
  | .writeMetrics _ => true
  | .writeAssessments _ => true
  | _ => false

/-- Modelled from the spec: `evaluations_to_dataframes`
(`mlflow/evaluation/utils.py`, not in the source under examination).  Per §4.2
it turns a sequence of evaluation entities into three flat tables, each
metric/assessment row carrying its parent `evaluation_id`. -/
def evaluations_to_dataframes (entities : List EvaluationEntity) :
    List EvaluationRow × List MetricRow × List AssessmentRow :=
  (entities.map (·.row),
   entities.flatMap fun e => e.metrics.map fun m =>
     { evaluation_id := e.row.evaluation_id, key := m.key, value := m.value,
       timestamp := m.timestamp, step := m.step },
   entities.flatMap (·.assessments))

/-- Modelled from the spec: `dataframes_to_evaluations`
(`mlflow/evaluation/utils.py`, not in the source under examination).  Per §4.2
it reconstructs one evaluation entity per evaluation row, attaching the
metrics and assessments grouped by matching `evaluation_id`. -/
def dataframes_to_evaluations (evaluations_df : List EvaluationRow)
    (metrics_df : List MetricRow) (assessments_df : List AssessmentRow) :
    List EvaluationEntity :=
  evaluations_df.map fun r =>
    { row := r,
      metrics := (metrics_df.filter (·.evaluation_id == r.evaluation_id)).map
        fun m => { key := m.key, value := m.value, timestamp := m.timestamp,
                   step := m.step },
      assessments := assessments_df.filter (·.evaluation_id == r.evaluation_id) }

/-- Modelled from the spec: `compute_assessment_stats_by_source`
(`mlflow/evaluation/utils.py`, not in the source under examination).  Per §4.4
it groups the rows matching the assessment name by `source`; the per-group
statistic values are deterministic functions of the group, which is carried
whole. -/
def compute_assessment_stats_by_source (assessments_df : List AssessmentRow)
    (assessment_name : String) : List (Source × List AssessmentRow) :=
  let rows := assessments_df.filter (·.name == assessment_name)
  (uniqueFirst (rows.map (·.source))).map fun s =>
    (s, rows.filter (·.source == s))

/-- The event trace of `_update_assessments_stats` (`fluent.py` lines
309-327): for each assessment name, one stats computation followed by one
`log_batch` call per source group. -/
def statsEvents (assessments_df : List AssessmentRow) :
    List String → List Ev
  | [] => []
  | n :: rest =>
      (Ev.statsFor n ::
        (compute_assessment_stats_by_source assessments_df n).map fun g =>
          Ev.logMetricBatch n g.1 g.2)
      ++ statsEvents assessments_df rest

/-- `get_evaluation` (`fluent.py` lines 330-384): requires the three table
artifacts to exist, filters the evaluations table to the requested id,
reconstructs from the three tables and requires exactly one result.  Returns
the outcome together with the trace of collaborator interactions performed
before returning/raising. -/
def get_evaluation (store : RunStore) (evaluation_id : String) :
    Except Err EvaluationEntity × List Ev :=
  if store.evaluations.isSome && store.metrics.isSome
      && store.assessments.isSome then
    if ((store.evaluations.getD []).filter
        (·.evaluation_id == evaluation_id)).isEmpty then
      (.error .evaluationNotFound, [.listArtifacts, .readEvaluations])
    else
      if (dataframes_to_evaluations
            ((store.evaluations.getD []).filter
              (·.evaluation_id == evaluation_id))
            (store.metrics.getD []) (store.assessments.getD [])).length
          == 1 then
        (.ok ((dataframes_to_evaluations
            ((store.evaluations.getD []).filter
              (·.evaluation_id == evaluation_id))
            (store.metrics.getD []) (store.assessments.getD [])).headD
          default),
         [.listArtifacts, .readEvaluations, .readMetrics, .readAssessments,
          .reconstruct])
      else
        (.error (.reconstructionCount (dataframes_to_evaluations
            ((store.evaluations.getD []).filter
              (·.evaluation_id == evaluation_id))
            (store.metrics.getD []) (store.assessments.getD [])).length),
         [.listArtifacts, .readEvaluations, .readMetrics, .readAssessments,
          .reconstruct])
  else
    (.error .runMissingTables, [.listArtifacts])

/-- The dict-or-object polymorphic form of one assessment argument.  A dict
form carries the assessment its fields describe; `Assessment.from_dictionary`
is the identity on that payload (the spec's lossless round-trip, §4.1). -/
inductive AssessForm where
  | obj (a : Assessment)
  | dict (d : Assessment)
deriving DecidableEq, Repr

/-- Whether the form is a dictionary (`isinstance(assess, dict)`). -/
def AssessForm.isDict : AssessForm → Bool
  | .obj _ => false
  | .dict _ => true

/-- The assessment described by the form (`Assessment.from_dictionary` for the
dict form). -/
def AssessForm.get : AssessForm → Assessment
  | .obj a => a
  | .dict d => d

/-- The `Union[Assessment, List[Assessment], Dict, List[Dict]]` argument of
`log_assessments`. -/
inductive AssessmentsArg where
  | single (a : Assessment)
  | singleDict (d : Assessment)
  | listArg (l : List AssessForm)
deriving DecidableEq, Repr

/-- The argument normalization of `log_assessments` (`fluent.py` lines
220-230): a dict becomes a one-element list, a list containing any dict must
be all dicts (else a plain `ValueError`), a bare object becomes a one-element
list. -/
def normalize_log_assessments :
    AssessmentsArg → Except Err (List Assessment)
  | .singleDict d => .ok [d]
  | .listArg l =>
      if l.any AssessForm.isDict then
        if l.all AssessForm.isDict then .ok (l.map AssessForm.get)
        else .error .mixedDictObjectValueError
      else .ok (l.map AssessForm.get)
  | .single a => .ok [a]

/-- The sequential merge loop of `log_assessments` (`fluent.py` lines
235-238): apply `_add_assessment_to_df` for each assessment entity in order,
propagating the first failure. -/
def foldMerge (assessments_df : List AssessmentRow)
    (entities : List AssessmentRow) (evaluation_id : String) :
    Except Err (List AssessmentRow) :=
  match entities with
  | [] => .ok assessments_df
  | a :: rest =>
      match _add_assessment_to_df assessments_df a evaluation_id with
      | .error e => .error e
      | .ok df => foldMerge df rest evaluation_id

/-- `log_assessments` (`fluent.py` lines 198-247): verifies the evaluation
exists by fetching it, normalizes the dict/object forms, stamps the
evaluation id onto each assessment, reads the assessments table, merges each
assessment sequentially, logs stats for the distinct touched names, and
persists the updated table.  Returns the outcome, the resulting store and the
trace of collaborator interactions performed before returning/raising. -/
def log_assessments (store : RunStore) (evaluation_id : String)
    (assessments : AssessmentsArg) :
    Except Err Unit × RunStore × List Ev :=
  match get_evaluation store evaluation_id with
  | (.error e, tr) => (.error e, store, tr)
  | (.ok _, tr) =>
      match normalize_log_assessments assessments with
      | .error e => (.error e, store, tr)
      | .ok objs =>
          match foldMerge (store.assessments.getD [])
              (objs.map (·.toRow evaluation_id)) evaluation_id with
          | .error e => (.error e, store, tr ++ [.readAssessments])
          | .ok updated_df =>
              (.ok (), { store with assessments := some updated_df },
               tr ++ [.readAssessments]
                 ++ statsEvents updated_df (uniqueFirst
                     ((objs.map (·.toRow evaluation_id)).map (·.name)))
                 ++ [.writeAssessments updated_df])

/-- Whether every two same-name assessments of the batch share a value type. -/
def batchConsistent (batch : List Assessment) : Bool :=
  batch.all fun a => batch.all fun b =>
    a.name != b.name || (a.value.valueType == b.value.valueType)

/-- Modelled from the spec: the validation stage of `logEvaluations`.  The
batch-level value-type pre-check (`verify_assessments_have_same_value_type`
and the `Evaluation` record validation, in `mlflow/evaluation/utils.py` and
`mlflow/evaluation/evaluation.py`, neither in the source under examination)
per §4.1/§4.5: fails before any persistence if assessments of mixed value
type are supplied for the same name within the batch. -/
def verifyEvaluationBatch (evaluations : List Evaluation) : Except Err Unit :=
  if batchConsistent (evaluations.flatMap (·.assessments)) then .ok ()
  else .error .batchTypeMismatch

/-- `log_evaluations` (`fluent.py` lines 95-129): after the validation stage,
assigns each evaluation a fresh id from the supplied id stream, encodes the
batch into the three tables, persists them in order (evaluations, metrics,
assessments) and logs stats for every distinct assessment name in the new
assessments table (`assessments_df["name"].unique()`).  The three tables
built from the batch — the entities (batch zipped with the fresh id stream)
encoded via the codec — are factored out as `logEvaluationsTables`. -/
def logEvaluationsTables (run_id : String) (evaluations : List Evaluation)
    (ids : List String) :
    List EvaluationRow × List MetricRow × List AssessmentRow :=
  evaluations_to_dataframes
    ((evaluations.zip ids).map fun p => p.1.toEntity run_id p.2)

def log_evaluations (store : RunStore) (run_id : String)
    (evaluations : List Evaluation) (ids : List String) :
    Except Err (List EvaluationEntity) × RunStore × List Ev :=
  match verifyEvaluationBatch evaluations with
  | .error e => (.error e, store, [])
  | .ok _ =>
      (.ok ((evaluations.zip ids).map fun p => p.1.toEntity run_id p.2),
       { store with
          evaluations := some (logEvaluationsTables run_id evaluations ids).1,
          metrics := some (logEvaluationsTables run_id evaluations ids).2.1,
          assessments :=
            some (logEvaluationsTables run_id evaluations ids).2.2 },
       [.writeEvaluations (logEvaluationsTables run_id evaluations ids).1,
        .writeMetrics (logEvaluationsTables run_id evaluations ids).2.1,
        .writeAssessments (logEvaluationsTables run_id evaluations ids).2.2]
         ++ statsEvents (logEvaluationsTables run_id evaluations ids).2.2
             (uniqueFirst
               ((logEvaluationsTables run_id evaluations ids).2.2.map
                 (·.name))))

/-- The assessments-form check of `log_evaluation` (`fluent.py` lines 67-73):
only when the FIRST element is a dict does the code verify that all elements
are dicts (raising `INVALID_PARAMETER_VALUE` otherwise) and convert them; a
batch whose first element is an object is passed through unchecked. -/
def log_evaluation_normalize_forms (assessments : List AssessForm) :
    Except Err (List AssessForm) :=
  match assessments with
  | [] => .ok []
  | f :: _ =>
      if f.isDict then
        if assessments.all AssessForm.isDict then
          .ok (assessments.map fun a => .obj a.get)
        else .error .mixedDictObject
      else .ok assessments

/-- Modelled from the spec: `verify_assessments_have_same_value_type`
(`mlflow/evaluation/utils.py`, not in the source under examination).  Per §4.1
it validates that the batch's same-name assessments share a value type,
raising `INVALID_PARAMETER_VALUE`.  It must call `get_value_type` on each
element, so a dict element that slipped past the form check raises a Python
`AttributeError` (dicts have no such method) before any comparison. -/
def verify_assessments_have_same_value_type (assessments : List AssessForm) :
    Except Err Unit :=
  if assessments.any AssessForm.isDict then .error .attributeError
  else if batchConsistent (assessments.map AssessForm.get) then .ok ()
  else .error .batchTypeMismatch

/-- `log_evaluation` (`fluent.py` lines 31-92): normalizes the assessment
forms, verifies their value types, builds one `Evaluation` and delegates to
`log_evaluations` with a single fresh id.  The `Dict[str, float]` convenience
form of `metrics` (lines 76-80) is a claims-irrelevant conversion and the
metrics are taken as records directly. -/
def log_evaluation (store : RunStore) (run_id : String)
    (inputs outputs : List (String × String)) (inputs_id : Option String)
    (request_id : Option String) (targets : Option (List (String × String)))
    (assessments : List AssessForm) (metrics : List Metric) (id : String) :
    Except Err EvaluationEntity × RunStore × List Ev :=
  match log_evaluation_normalize_forms assessments with
  | .error e => (.error e, store, [])
  | .ok forms =>
      match verify_assessments_have_same_value_type forms with
      | .error e => (.error e, store, [])
      | .ok _ =>
          let evaluation : Evaluation :=
            { inputs := inputs, outputs := outputs, inputs_id := inputs_id,
              request_id := request_id, targets := targets,
              assessments := forms.map AssessForm.get, metrics := metrics }
          match log_evaluations store run_id [evaluation] [id] with
          | (.error e, st, tr) => (.error e, st, tr)
          | (.ok entities, st, tr) => (.ok (entities.headD default), st, tr)

/-! ### Helper lemmas about the merge engine -/

@[simp] theorem toRow_evaluation_id (a : Assessment) (eid : String) :
    (a.toRow eid).evaluation_id = eid := rfl

@[simp] theorem toRow_name (a : Assessment) (eid : String) :
    (a.toRow eid).name = a.name := rfl

@[simp] theorem toRow_source (a : Assessment) (eid : String) :
    (a.toRow eid).source = a.source := rfl

@[simp] theorem toRow_value (a : Assessment) (eid : String) :
    (a.toRow eid).value = a.value := rfl

@[simp] theorem restamp_toRow (a : Assessment) (eid : String) :
    { a.toRow eid with evaluation_id := eid } = a.toRow eid := rfl

theorem matchesName_iff (eid : String) (x r : AssessmentRow) :
    matchesName eid x r = true ↔ r.evaluation_id = eid ∧ r.name = x.name := by
  simp [matchesName]

theorem matchesKey_iff (eid : String) (x r : AssessmentRow) :
    matchesKey eid x r = true ↔
      r.evaluation_id = eid ∧ r.name = x.name ∧ r.source = x.source := by
  simp [matchesKey, and_assoc]

/-- The no-conflict hypothesis: every persisted row sharing the incoming
assessment's `(evaluation_id, name)` already has its value type. -/
def noTypeConflict (df : List AssessmentRow) (a : Assessment)
    (eid : String) : Prop :=
  ∀ r ∈ df, r.evaluation_id = eid → r.name = a.name →
    r.value.valueType = a.value.valueType

theorem merge_all_check_of_noTypeConflict (df : List AssessmentRow)
    (a : Assessment) (eid : String) (hc : noTypeConflict df a eid) :
    (df.filter (matchesName eid (a.toRow eid))).all
      (fun r => (a.toRow eid).value.valueType == r.value.valueType) = true := by
  rw [List.all_eq_true]
  intro r hr
  rw [List.mem_filter] at hr
  rcases (matchesName_iff _ _ _).mp hr.2 with ⟨h1, h2⟩
  simp only [toRow_value, beq_iff_eq]
  exact (hc r hr.1 h1 (by simpa using h2)).symm

/-- The in-place overwrite the merge engine performs on a key-matching row:
replace its fields with the incoming assessment's, re-stamping
`evaluation_id`; leave other rows unchanged. -/
def overwriteWith (a : Assessment) (eid : String) (r : AssessmentRow) :
    AssessmentRow :=
  if matchesKey eid (a.toRow eid) r then a.toRow eid else r

/-- When a `(evaluation_id, name, source)` match exists and no value-type
conflict, the merge overwrites the matching rows in place. -/
theorem merge_eq_update (df : List AssessmentRow) (a : Assessment)
    (eid : String) (hc : noTypeConflict df a eid)
    (hkey : df.any (matchesKey eid (a.toRow eid)) = true) :
    _add_assessment_to_df df (a.toRow eid) eid =
      .ok (df.map (overwriteWith a eid)) := by
  unfold _add_assessment_to_df
  rw [merge_all_check_of_noTypeConflict df a eid hc, if_pos rfl, hkey,
    if_pos rfl]
  rfl

/-- When no `(evaluation_id, name, source)` match exists and no value-type
conflict, the merge appends the new row. -/
theorem merge_eq_append (df : List AssessmentRow) (a : Assessment)
    (eid : String) (hc : noTypeConflict df a eid)
    (hkey : df.any (matchesKey eid (a.toRow eid)) = false) :
    _add_assessment_to_df df (a.toRow eid) eid = .ok (df ++ [a.toRow eid]) := by
  unfold _add_assessment_to_df
  rw [merge_all_check_of_noTypeConflict df a eid hc, if_pos rfl, hkey]
  simp [append_to_assessments_dataframe]

theorem matchesKey_toRow_self (a : Assessment) (eid : String) :
    matchesKey eid (a.toRow eid) (a.toRow eid) = true := by
  simp [matchesKey]

theorem map_self {α : Type} (f : α → α) (l : List α) (h : ∀ x ∈ l, f x = x) :
    l.map f = l := by
  induction l with
  | nil => rfl
  | cons x xs ih =>
      rw [List.map_cons, h x (List.mem_cons_self x xs),
        ih fun y hy => h y (List.mem_cons_of_mem _ hy)]

/-- Any successful merge either rewrote the key-matching rows in place or
appended the incoming row, and the value-type check passed. -/
theorem merge_ok_cases (df : List AssessmentRow) (a : Assessment)
    (eid : String) (df' : List AssessmentRow)
    (h : _add_assessment_to_df df (a.toRow eid) eid = .ok df') :
    noTypeConflict df a eid ∧
      (df' = df.map (overwriteWith a eid) ∨ df' = df ++ [a.toRow eid]) := by
  unfold _add_assessment_to_df at h
  by_cases hall : (df.filter (matchesName eid (a.toRow eid))).all
      (fun r => (a.toRow eid).value.valueType == r.value.valueType) = true
  · have hc : noTypeConflict df a eid := by
      intro r hr h1 h2
      rw [List.all_eq_true] at hall
      have hmem : r ∈ df.filter (matchesName eid (a.toRow eid)) := by
        rw [List.mem_filter]
        exact ⟨hr, (matchesName_iff _ _ _).mpr ⟨h1, by simpa using h2⟩⟩
      have := hall r hmem
      simp only [toRow_value, beq_iff_eq] at this
      exact this.symm
    refine ⟨hc, ?_⟩
    rw [hall, if_pos rfl] at h
    by_cases hkey : df.any (matchesKey eid (a.toRow eid)) = true
    · rw [hkey, if_pos rfl] at h
      simp only [Except.ok.injEq, restamp_toRow] at h
      exact Or.inl h.symm
    · rw [Bool.not_eq_true] at hkey
      rw [hkey] at h
      simp only [Bool.false_eq_true, if_false, Except.ok.injEq,
        append_to_assessments_dataframe] at h
      exact Or.inr h.symm
  · rw [Bool.not_eq_true] at hall
    rw [hall] at h
    simp at h

/-- A persisted row sharing the incoming assessment's `(evaluation_id, name)`
but not its value type makes the merge fail with a type conflict naming the
incoming type and the (under the table invariant, unique) existing type. -/
theorem merge_conflict (df : List AssessmentRow) (a : Assessment)
    (eid : String) (hinv : tableTypeInvariant df)
    (hconf : ∃ r ∈ df, r.evaluation_id = eid ∧ r.name = a.name
      ∧ r.value.valueType ≠ a.value.valueType) :
    ∃ t, t ≠ a.value.valueType ∧
      _add_assessment_to_df df (a.toRow eid) eid
        = .error (.typeConflict a.name a.value.valueType t) := by
  obtain ⟨r0, hr0, h1, h2, h3⟩ := hconf
  have hr0m : r0 ∈ df.filter (matchesName eid (a.toRow eid)) := by
    rw [List.mem_filter]
    exact ⟨hr0, (matchesName_iff _ _ _).mpr ⟨h1, by simpa using h2⟩⟩
  have hall : (df.filter (matchesName eid (a.toRow eid))).all
      (fun r => (a.toRow eid).value.valueType == r.value.valueType) = false := by
    rw [Bool.eq_false_iff]
    intro hall
    rw [List.all_eq_true] at hall
    have := hall r0 hr0m
    simp only [toRow_value, beq_iff_eq] at this
    exact h3 this.symm
  rcases hm : df.filter (matchesName eid (a.toRow eid)) with _ | ⟨m, ms⟩
  · rw [hm] at hr0m
    simp at hr0m
  · refine ⟨m.value.valueType, ?_, ?_⟩
    · have hmm : m ∈ df.filter (matchesName eid (a.toRow eid)) := by
        rw [hm]
        exact List.mem_cons_self _ _
      rw [List.mem_filter] at hmm
      rcases (matchesName_iff _ _ _).mp hmm.2 with ⟨hm1, hm2⟩
      have heq := hinv m hmm.1 r0 hr0 (by rw [hm1, h1]) (by
        rw [hm2]
        simpa using h2.symm)
      rw [heq]
      exact h3
    · unfold _add_assessment_to_df
      rw [hall]
      simp only [Bool.false_eq_true, if_false, hm, List.headD_cons]
      rfl

theorem map_congr_mem {α β : Type} (f g : α → β) (l : List α)
    (h : ∀ x ∈ l, f x = g x) : l.map f = l.map g := by
  induction l with
  | nil => rfl
  | cons x xs ih =>
      rw [List.map_cons, List.map_cons, h x (List.mem_cons_self x xs),
        ih fun y hy => h y (List.mem_cons_of_mem _ hy)]

theorem overwriteWith_idem (a : Assessment) (eid : String)
    (r : AssessmentRow) :
    overwriteWith a eid (overwriteWith a eid r) = overwriteWith a eid r := by
  unfold overwriteWith
  by_cases hk : matchesKey eid (a.toRow eid) r = true
  · rw [if_pos hk, if_pos (matchesKey_toRow_self a eid)]
  · rw [if_neg hk, if_neg hk]

theorem noTypeConflict_overwrite (df : List AssessmentRow) (a : Assessment)
    (eid : String) (hc : noTypeConflict df a eid) :
    noTypeConflict (df.map (overwriteWith a eid)) a eid := by
  intro r' hr' h1 h2
  rcases List.mem_map.mp hr' with ⟨r, hr, rfl⟩
  by_cases hk : matchesKey eid (a.toRow eid) r = true
  · simp only [overwriteWith, if_pos hk]
    rfl
  · simp only [overwriteWith, if_neg hk] at h1 h2 ⊢
    exact hc r hr h1 h2

theorem noTypeConflict_append (df : List AssessmentRow) (a : Assessment)
    (eid : String) (hc : noTypeConflict df a eid) :
    noTypeConflict (df ++ [a.toRow eid]) a eid := by
  intro r' hr' h1 h2
  rcases List.mem_append.mp hr' with hr | hr
  · exact hc r' hr h1 h2
  · rcases List.mem_singleton.mp hr with rfl
    rfl

theorem any_key_overwrite (df : List AssessmentRow) (a : Assessment)
    (eid : String) (hkey : df.any (matchesKey eid (a.toRow eid)) = true) :
    (df.map (overwriteWith a eid)).any (matchesKey eid (a.toRow eid))
      = true := by
  rw [List.any_eq_true] at hkey ⊢
  obtain ⟨r, hr, hk⟩ := hkey
  refine ⟨a.toRow eid, ?_, matchesKey_toRow_self a eid⟩
  rcases List.mem_map.mp (List.mem_map_of_mem (overwriteWith a eid) hr)
    with ⟨s, hs, hfs⟩
  have : overwriteWith a eid r = a.toRow eid := by
    unfold overwriteWith
    rw [if_pos hk]
  exact this ▸ List.mem_map_of_mem (overwriteWith a eid) hr

/-! ### Concrete fixtures used by witnesses and counterexamples -/

def humanSource : Source := { sourceType := "HUMAN", sourceId := "h1" }

def judgeSource : Source := { sourceType := "AI_JUDGE", sourceId := "j1" }

def boolAssessment : Assessment :=
  { name := "quality", source := humanSource, value := .vBool true }

def numAssessment : Assessment :=
  { name := "quality", source := humanSource, value := .vNum 1 }

def judgeNumAssessment : Assessment :=
  { name := "quality", source := judgeSource, value := .vNum 2 }

/-- A one-row assessments table: a numeric "quality" assessment by the human
source on evaluation `e1`. -/
def sampleDf : List AssessmentRow := [numAssessment.toRow "e1"]

def sampleEvaluationRow : EvaluationRow :=
  { evaluation_id := "e1", run_id := "r1",
    inputs := [("question", "x")], outputs := [("answer", "y")] }

/-- A run store holding evaluation `e1` and the one-row `sampleDf` table. -/
def sampleStore : RunStore :=
  { evaluations := some [sampleEvaluationRow], metrics := some [],
    assessments := some sampleDf }

instance (df : List AssessmentRow) (a : Assessment) (eid : String) :
    Decidable (noTypeConflict df a eid) := by
  unfold noTypeConflict
  infer_instance

instance (df : List AssessmentRow) : Decidable (tableTypeInvariant df) := by
  unfold tableTypeInvariant
  infer_instance

/-! ### Claim C2 -/

/-- C2: on a table satisfying the per-`(evaluation_id, name)` same-value-type
invariant, merging an assessment whose type conflicts with existing matching
rows fails with a validation error naming both conflicting types and leaves
the persisted assessments table unchanged; any successful merge preserves the
invariant. -/
theorem merge_enforces_type_invariant (df : List AssessmentRow)
    (a : Assessment) (eid : String) (hinv : tableTypeInvariant df) :
    ((∃ r ∈ df, r.evaluation_id = eid ∧ r.name = a.name
        ∧ r.value.valueType ≠ a.value.valueType) →
      (∃ t, t ≠ a.value.valueType
        ∧ _add_assessment_to_df df (a.toRow eid) eid
            = .error (.typeConflict a.name a.value.valueType t)
        ∧ Err.errorCode (.typeConflict a.name a.value.valueType t)
            = some .INVALID_PARAMETER_VALUE)
      ∧ ∀ S : RunStore, S.assessments = some df →
          (log_assessments S eid (.single a)).2.1 = S
          ∧ (log_assessments S eid (.single a)).1 ≠ .ok ())
    ∧ ∀ df', _add_assessment_to_df df (a.toRow eid) eid = .ok df' →
        tableTypeInvariant df' := by
  constructor
  · intro hconf
    obtain ⟨t, ht, herr⟩ := merge_conflict df a eid hinv hconf
    refine ⟨⟨t, ht, herr, rfl⟩, ?_⟩
    intro S hS
    rcases hge : get_evaluation S eid with ⟨res, tr⟩
    unfold log_assessments
    rw [hge]
    cases res with
    | error e => exact ⟨rfl, by simp⟩
    | ok v =>
        simp only [normalize_log_assessments, List.map_cons, List.map_nil,
          foldMerge, hS, Option.getD_some, herr]
        exact ⟨by simp, by simp⟩
  · intro df' h
    obtain ⟨hc, hcase⟩ := merge_ok_cases df a eid df' h
    rcases hcase with rfl | rfl
    · intro r' hr' s' hs' he hn
      rcases List.mem_map.mp hr' with ⟨r, hr, rfl⟩
      rcases List.mem_map.mp hs' with ⟨s, hs, rfl⟩
      by_cases hkr : matchesKey eid (a.toRow eid) r = true
        <;> by_cases hks : matchesKey eid (a.toRow eid) s = true
      · simp only [overwriteWith, if_pos hkr, if_pos hks]
      · simp only [overwriteWith, if_pos hkr, if_neg hks] at he hn ⊢
        simp only [toRow_evaluation_id, toRow_name, toRow_value] at he hn ⊢
        exact (hc s hs he.symm hn.symm).symm
      · simp only [overwriteWith, if_neg hkr, if_pos hks] at he hn ⊢
        simp only [toRow_evaluation_id, toRow_name, toRow_value] at he hn ⊢
        exact hc r hr he hn
      · simp only [overwriteWith, if_neg hkr, if_neg hks] at he hn ⊢
        exact hinv r hr s hs he hn
    · intro r' hr' s' hs' he hn
      rcases List.mem_append.mp hr' with hr | hr
        <;> rcases List.mem_append.mp hs' with hs | hs
      · exact hinv r' hr s' hs he hn
      · rcases List.mem_singleton.mp hs with rfl
        simp only [toRow_evaluation_id, toRow_name, toRow_value] at he hn ⊢
        exact hc r' hr he hn
      · rcases List.mem_singleton.mp hr with rfl
        simp only [toRow_evaluation_id, toRow_name, toRow_value] at he hn ⊢
        exact (hc s' hs he.symm hn.symm).symm
      · rcases List.mem_singleton.mp hr with rfl
        rcases List.mem_singleton.mp hs with rfl
        rfl

/-- Witness for C2 at a concrete conflicting input and a concrete successful
merge. -/
theorem merge_enforces_type_invariant_witness :
    tableTypeInvariant sampleDf
    ∧ ((∃ t, t ≠ boolAssessment.value.valueType
        ∧ _add_assessment_to_df sampleDf (boolAssessment.toRow "e1") "e1"
            = .error (.typeConflict boolAssessment.name
                boolAssessment.value.valueType t)
        ∧ Err.errorCode (.typeConflict boolAssessment.name
              boolAssessment.value.valueType t)
            = some .INVALID_PARAMETER_VALUE)
      ∧ ∀ S : RunStore, S.assessments = some sampleDf →
          (log_assessments S "e1" (.single boolAssessment)).2.1 = S
          ∧ (log_assessments S "e1" (.single boolAssessment)).1 ≠ .ok ()) :=
  ⟨by decide,
   (merge_enforces_type_invariant sampleDf boolAssessment "e1" (by decide)).1
     ⟨numAssessment.toRow "e1", by decide, by decide, by decide, by decide⟩⟩

/-! ### Claim C3 (corrected) -/

/-- C3 counterexample: in `sampleDf` a row with the same
`(evaluation_id, name, source)` as the incoming boolean assessment exists, yet
the merge does not overwrite it in place — it fails with a type conflict, so
no table (of unchanged row count or otherwise) is returned. -/
theorem upsert_key_match_counterexample :
    (∃ r ∈ sampleDf, r.evaluation_id = "e1" ∧ r.name = boolAssessment.name
      ∧ r.source = boolAssessment.source)
    ∧ _add_assessment_to_df sampleDf (boolAssessment.toRow "e1") "e1"
        = .error (.typeConflict "quality" .boolean .numeric)
    ∧ ∀ df', _add_assessment_to_df sampleDf (boolAssessment.toRow "e1") "e1"
        ≠ .ok df' := by
  refine ⟨⟨numAssessment.toRow "e1", by decide, by decide, by decide,
    by decide⟩, rfl, ?_⟩
  intro df' hdf
  rw [show _add_assessment_to_df sampleDf (boolAssessment.toRow "e1") "e1"
      = .error (.typeConflict "quality" .boolean .numeric) from rfl] at hdf
  exact absurd hdf (by simp)

/-- C3 amended: provided the incoming assessment's value type agrees with the
existing rows sharing its `(evaluation_id, name)`, the merge overwrites
key-matching rows in place (re-stamping `evaluation_id`, preserving position
and row count) when a `(evaluation_id, name, source)` match exists, and
appends exactly one row otherwise. -/
theorem upsert_update_or_append (df : List AssessmentRow) (a : Assessment)
    (eid : String) (hc : noTypeConflict df a eid) :
    (df.any (matchesKey eid (a.toRow eid)) = true →
      _add_assessment_to_df df (a.toRow eid) eid
        = .ok (df.map (overwriteWith a eid))
      ∧ (df.map (overwriteWith a eid)).length = df.length)
    ∧ (df.any (matchesKey eid (a.toRow eid)) = false →
      _add_assessment_to_df df (a.toRow eid) eid = .ok (df ++ [a.toRow eid])
      ∧ (df ++ [a.toRow eid]).length = df.length + 1) :=
  ⟨fun hkey => ⟨merge_eq_update df a eid hc hkey, List.length_map df _⟩,
   fun hkey => ⟨merge_eq_append df a eid hc hkey, by simp⟩⟩

/-- Witness for the amended C3: an in-place update (same source) and an
append (new source) on the concrete one-row table. -/
theorem upsert_update_or_append_witness :
    (sampleDf.any (matchesKey "e1" (numAssessment.toRow "e1")) = true
      ∧ _add_assessment_to_df sampleDf (numAssessment.toRow "e1") "e1"
          = .ok (sampleDf.map (overwriteWith numAssessment "e1"))
      ∧ (sampleDf.map (overwriteWith numAssessment "e1")).length
          = sampleDf.length)
    ∧ (sampleDf.any (matchesKey "e1" (judgeNumAssessment.toRow "e1")) = false
      ∧ _add_assessment_to_df sampleDf (judgeNumAssessment.toRow "e1") "e1"
          = .ok (sampleDf ++ [judgeNumAssessment.toRow "e1"])
      ∧ (sampleDf ++ [judgeNumAssessment.toRow "e1"]).length
          = sampleDf.length + 1) :=
  ⟨⟨by decide,
    (upsert_update_or_append sampleDf numAssessment "e1" (by decide)).1
      (by decide)⟩,
   ⟨by decide,
    (upsert_update_or_append sampleDf judgeNumAssessment "e1" (by decide)).2
      (by decide)⟩⟩

/-! ### Claim C4 -/

/-- C4: the merge engine is idempotent — when the incoming assessment's value
type is consistent with the table, merging it twice yields the same table as
merging it once. -/
theorem merge_idempotent (df : List AssessmentRow) (a : Assessment)
    (eid : String) (hc : noTypeConflict df a eid) :
    ∃ df', _add_assessment_to_df df (a.toRow eid) eid = .ok df'
      ∧ _add_assessment_to_df df' (a.toRow eid) eid = .ok df' := by
  by_cases hkey : df.any (matchesKey eid (a.toRow eid)) = true
  · refine ⟨df.map (overwriteWith a eid),
      merge_eq_update df a eid hc hkey, ?_⟩
    rw [merge_eq_update (df.map (overwriteWith a eid)) a eid
      (noTypeConflict_overwrite df a eid hc)
      (any_key_overwrite df a eid hkey), List.map_map]
    have : df.map (overwriteWith a eid ∘ overwriteWith a eid)
        = df.map (overwriteWith a eid) :=
      map_congr_mem _ _ df fun x _ => overwriteWith_idem a eid x
    rw [this]
  · rw [Bool.not_eq_true] at hkey
    refine ⟨df ++ [a.toRow eid], merge_eq_append df a eid hc hkey, ?_⟩
    have hkey' : (df ++ [a.toRow eid]).any (matchesKey eid (a.toRow eid))
        = true := by
      rw [List.any_eq_true]
      exact ⟨a.toRow eid, List.mem_append_right _ (List.mem_singleton.mpr rfl),
        matchesKey_toRow_self a eid⟩
    rw [merge_eq_update (df ++ [a.toRow eid]) a eid
      (noTypeConflict_append df a eid hc) hkey']
    have : (df ++ [a.toRow eid]).map (overwriteWith a eid)
        = df ++ [a.toRow eid] := by
      refine map_self _ _ ?_
      intro x hx
      rcases List.mem_append.mp hx with hx | hx
      · have : matchesKey eid (a.toRow eid) x = false := by
          rw [List.any_eq_false] at hkey
          simpa using hkey x hx
        unfold overwriteWith
        rw [this]
        simp
      · rcases List.mem_singleton.mp hx with rfl
        unfold overwriteWith
        rw [if_pos (matchesKey_toRow_self a eid)]
    rw [this]

/-- Witness for C4 at a concrete table and assessment. -/
theorem merge_idempotent_witness :
    noTypeConflict sampleDf judgeNumAssessment "e1"
    ∧ ∃ df', _add_assessment_to_df sampleDf (judgeNumAssessment.toRow "e1")
          "e1" = .ok df'
      ∧ _add_assessment_to_df df' (judgeNumAssessment.toRow "e1") "e1"
          = .ok df' :=
  ⟨by decide, merge_idempotent sampleDf judgeNumAssessment "e1" (by decide)⟩

/-! ### Claim C1 -/

def emptyStore : RunStore := {}

/-- C1: a batch handed to `log_evaluations` containing two same-name
assessments of different value types fails at the validation stage with
`INVALID_PARAMETER_VALUE`, the store is unchanged and no collaborator
interaction — in particular no table write — takes place. -/
theorem log_evaluations_mixed_types_fail_before_persist (S : RunStore)
    (run_id : String) (evaluations : List Evaluation) (ids : List String)
    (hmix : ∃ a ∈ evaluations.flatMap (·.assessments),
      ∃ b ∈ evaluations.flatMap (·.assessments),
        a.name = b.name ∧ a.value.valueType ≠ b.value.valueType) :
    log_evaluations S run_id evaluations ids
        = (.error .batchTypeMismatch, S, [])
    ∧ Err.errorCode .batchTypeMismatch = some .INVALID_PARAMETER_VALUE := by
  have hbc : batchConsistent (evaluations.flatMap (·.assessments))
      = false := by
    rw [Bool.eq_false_iff]
    intro h
    obtain ⟨a, ha, b, hb, hn, ht⟩ := hmix
    rw [batchConsistent, List.all_eq_true] at h
    have h2 := h a ha
    rw [List.all_eq_true] at h2
    have h3 := h2 b hb
    simp only [Bool.or_eq_true, bne_iff_ne, beq_iff_eq] at h3
    rcases h3 with h3 | h3
    · exact h3 hn
    · exact ht h3
  refine ⟨?_, rfl⟩
  unfold log_evaluations verifyEvaluationBatch
  rw [hbc]
  simp

def mixedEvalA : Evaluation :=
  { inputs := [("question", "x")], outputs := [("answer", "y")],
    assessments := [boolAssessment] }

def mixedEvalB : Evaluation :=
  { inputs := [("question", "z")], outputs := [("answer", "w")],
    assessments := [numAssessment] }

/-- Witness for C1 on a concrete two-evaluation batch whose "quality"
assessments are boolean and numeric respectively. -/
theorem log_evaluations_mixed_types_witness :
    (∃ a ∈ [mixedEvalA, mixedEvalB].flatMap (·.assessments),
      ∃ b ∈ [mixedEvalA, mixedEvalB].flatMap (·.assessments),
        a.name = b.name ∧ a.value.valueType ≠ b.value.valueType)
    ∧ log_evaluations emptyStore "r1" [mixedEvalA, mixedEvalB] ["id1", "id2"]
        = (.error .batchTypeMismatch, emptyStore, [])
    ∧ Err.errorCode .batchTypeMismatch = some .INVALID_PARAMETER_VALUE :=
  ⟨by decide,
   (log_evaluations_mixed_types_fail_before_persist emptyStore "r1"
     [mixedEvalA, mixedEvalB] ["id1", "id2"] (by decide)).1,
   (log_evaluations_mixed_types_fail_before_persist emptyStore "r1"
     [mixedEvalA, mixedEvalB] ["id1", "id2"] (by decide)).2⟩

/-! ### Claim C5 (corrected) -/

def mixedFormsBatch : List AssessForm :=
  [.obj boolAssessment, .dict boolAssessment]

/-- C5 counterexample: a batch mixing object and dict forms whose FIRST
element is an object is not rejected with `INVALID_PARAMETER_VALUE`; the form
check of `log_evaluation` is skipped and the call fails with a plain
`AttributeError` carrying no MLflow error code. -/
theorem mixed_forms_counterexample :
    mixedFormsBatch.any AssessForm.isDict = true
    ∧ mixedFormsBatch.any (fun f => !f.isDict) = true
    ∧ (log_evaluation emptyStore "r1" [("question", "x")] [("answer", "y")]
        none none none mixedFormsBatch [] "id1").1 = .error .attributeError
    ∧ Err.errorCode .attributeError = none
    ∧ Err.errorCode .attributeError ≠ some .INVALID_PARAMETER_VALUE :=
  ⟨rfl, rfl, rfl, rfl, by decide⟩

/-- C5 amended: a mixed dict/object batch is rejected with
`INVALID_PARAMETER_VALUE` by `log_evaluation` only when its first element is
a dict; when the first element is an object the batch escapes the form check
and fails with a plain `AttributeError`.  `log_assessments` rejects every
mixed list batch, but with a plain `ValueError` (no MLflow error code). -/
theorem mixed_forms_rejection (S T : RunStore) (run_id eid : String)
    (inputs outputs : List (String × String)) (inputs_id : Option String)
    (request_id : Option String) (targets : Option (List (String × String)))
    (metrics : List Metric) (id : String) (l : List AssessForm)
    (hmixD : l.any AssessForm.isDict = true)
    (hmixO : l.any (fun f => !f.isDict) = true) :
    ((∃ d rest, l = .dict d :: rest) →
      (log_evaluation S run_id inputs outputs inputs_id request_id targets
          l metrics id).1 = .error .mixedDictObject
      ∧ Err.errorCode .mixedDictObject = some .INVALID_PARAMETER_VALUE)
    ∧ ((∃ a rest, l = .obj a :: rest) →
      (log_evaluation S run_id inputs outputs inputs_id request_id targets
          l metrics id).1 = .error .attributeError
      ∧ Err.errorCode .attributeError = none)
    ∧ (∀ v, (get_evaluation T eid).1 = .ok v →
      (log_assessments T eid (.listArg l)).1
          = .error .mixedDictObjectValueError
      ∧ Err.errorCode .mixedDictObjectValueError = none) := by
  have hall : l.all AssessForm.isDict = false := by
    rw [Bool.eq_false_iff]
    intro h
    rw [List.any_eq_true] at hmixO
    obtain ⟨f, hf, hnd⟩ := hmixO
    rw [List.all_eq_true] at h
    rw [h f hf] at hnd
    exact absurd hnd (by simp)
  refine ⟨?_, ?_, ?_⟩
  · rintro ⟨d, rest, rfl⟩
    refine ⟨?_, rfl⟩
    unfold log_evaluation log_evaluation_normalize_forms
    simp only [AssessForm.isDict, if_pos, hall]
    simp
  · rintro ⟨a, rest, rfl⟩
    refine ⟨?_, rfl⟩
    unfold log_evaluation log_evaluation_normalize_forms
    simp only [AssessForm.isDict, Bool.false_eq_true, if_false]
    unfold verify_assessments_have_same_value_type
    rw [hmixD]
    simp
  · intro v hv
    refine ⟨?_, rfl⟩
    rcases hge : get_evaluation T eid with ⟨res, tr⟩
    rw [hge] at hv
    simp only at hv
    subst hv
    unfold log_assessments
    rw [hge]
    simp only [normalize_log_assessments, hmixD, if_pos, hall]
    simp

/-- Witness for the amended C5 on concrete mixed batches (dict-first and
object-first) and the concrete `sampleStore`. -/
theorem mixed_forms_rejection_witness :
    ([AssessForm.dict boolAssessment, AssessForm.obj boolAssessment].any
        AssessForm.isDict = true)
    ∧ ((log_evaluation emptyStore "r1" [("question", "x")] [("answer", "y")]
        none none none [AssessForm.dict boolAssessment,
          AssessForm.obj boolAssessment] [] "id1").1
          = .error .mixedDictObject
      ∧ Err.errorCode .mixedDictObject = some .INVALID_PARAMETER_VALUE)
    ∧ ((log_evaluation emptyStore "r1" [("question", "x")] [("answer", "y")]
        none none none mixedFormsBatch [] "id1").1 = .error .attributeError
      ∧ Err.errorCode .attributeError = none)
    ∧ ((log_assessments sampleStore "e1" (.listArg mixedFormsBatch)).1
          = .error .mixedDictObjectValueError
      ∧ Err.errorCode .mixedDictObjectValueError = none) :=
  ⟨rfl,
   (mixed_forms_rejection emptyStore sampleStore "r1" "e1" [("question", "x")]
     [("answer", "y")] none none none [] "id1"
     [.dict boolAssessment, .obj boolAssessment] rfl rfl).1
       ⟨boolAssessment, [.obj boolAssessment], rfl⟩,
   (mixed_forms_rejection emptyStore sampleStore "r1" "e1" [("question", "x")]
     [("answer", "y")] none none none [] "id1" mixedFormsBatch rfl rfl).2.1
       ⟨boolAssessment, [.dict boolAssessment], rfl⟩,
   (mixed_forms_rejection emptyStore sampleStore "r1" "e1" [("question", "x")]
     [("answer", "y")] none none none [] "id1" mixedFormsBatch rfl rfl).2.2
       { row := sampleEvaluationRow, metrics := [], assessments := sampleDf }
       rfl⟩

/-! ### Claim C6 -/

/-- C6: `get_evaluation` fails with `RESOURCE_DOES_NOT_EXIST` when the run
lacks any of the three tables, and when the evaluations table has no row with
the requested id; in both cases the trace shows no reconstruction was
attempted. -/
theorem get_evaluation_not_found (S : RunStore) (eid : String) :
    (¬(S.evaluations.isSome = true ∧ S.metrics.isSome = true
        ∧ S.assessments.isSome = true) →
      get_evaluation S eid = (.error .runMissingTables, [.listArtifacts])
      ∧ Err.errorCode .runMissingTables = some .RESOURCE_DOES_NOT_EXIST
      ∧ Ev.reconstruct ∉ [Ev.listArtifacts])
    ∧ (S.evaluations.isSome = true → S.metrics.isSome = true →
      S.assessments.isSome = true →
      (S.evaluations.getD []).filter (·.evaluation_id == eid) = [] →
      get_evaluation S eid
          = (.error .evaluationNotFound, [.listArtifacts, .readEvaluations])
      ∧ Err.errorCode .evaluationNotFound = some .RESOURCE_DOES_NOT_EXIST
      ∧ Ev.reconstruct ∉ [Ev.listArtifacts, Ev.readEvaluations]) := by
  constructor
  · intro hmiss
    have hcond : (S.evaluations.isSome && S.metrics.isSome
        && S.assessments.isSome) = false := by
      rw [Bool.eq_false_iff]
      intro h
      rw [Bool.and_eq_true, Bool.and_eq_true] at h
      exact hmiss ⟨h.1.1, h.1.2, h.2⟩
    refine ⟨?_, rfl, by decide⟩
    unfold get_evaluation
    rw [hcond]
    simp
  · intro h1 h2 h3 hflt
    have hcond : (S.evaluations.isSome && S.metrics.isSome
        && S.assessments.isSome) = true := by
      rw [Bool.and_eq_true, Bool.and_eq_true]
      exact ⟨⟨h1, h2⟩, h3⟩
    refine ⟨?_, rfl, by decide⟩
    unfold get_evaluation
    rw [hcond, if_pos rfl, hflt]
    simp

/-- Witness for C6: a store without tables and the concrete store with a
nonexistent evaluation id. -/
theorem get_evaluation_not_found_witness :
    (get_evaluation emptyStore "e1"
        = (.error .runMissingTables, [.listArtifacts])
      ∧ Err.errorCode .runMissingTables = some .RESOURCE_DOES_NOT_EXIST
      ∧ Ev.reconstruct ∉ [Ev.listArtifacts])
    ∧ (get_evaluation sampleStore "nonexistent"
        = (.error .evaluationNotFound, [.listArtifacts, .readEvaluations])
      ∧ Err.errorCode .evaluationNotFound = some .RESOURCE_DOES_NOT_EXIST
      ∧ Ev.reconstruct ∉ [Ev.listArtifacts, Ev.readEvaluations]) :=
  ⟨(get_evaluation_not_found emptyStore "e1").1 (by decide),
   (get_evaluation_not_found sampleStore "nonexistent").2 (by decide)
     (by decide) (by decide) (by decide)⟩

/-! ### Claim C8 -/

/-- The records `get_evaluation` reconstructs for a single-id lookup: the
codec applied to the id-matching evaluation rows and the two other tables. -/
def reconstructedFor (S : RunStore) (eid : String) : List EvaluationEntity :=
  dataframes_to_evaluations
    ((S.evaluations.getD []).filter (·.evaluation_id == eid))
    (S.metrics.getD []) (S.assessments.getD [])

/-- C8: when the matching evaluation row is found, `get_evaluation` fails
with `INTERNAL_ERROR` reporting the observed count whenever reconstruction
yields a number of records other than one, and otherwise returns the single
reconstructed record. -/
theorem get_evaluation_single_reconstruction (S : RunStore) (eid : String)
    (h1 : S.evaluations.isSome = true) (h2 : S.metrics.isSome = true)
    (h3 : S.assessments.isSome = true)
    (hfound : (S.evaluations.getD []).filter (·.evaluation_id == eid) ≠ []) :
    ((reconstructedFor S eid).length ≠ 1 →
      (get_evaluation S eid).1
          = .error (.reconstructionCount (reconstructedFor S eid).length)
      ∧ Err.errorCode (.reconstructionCount (reconstructedFor S eid).length)
          = some .INTERNAL_ERROR)
    ∧ ∀ ent, reconstructedFor S eid = [ent] →
        (get_evaluation S eid).1 = .ok ent := by
  have hcond : (S.evaluations.isSome && S.metrics.isSome
      && S.assessments.isSome) = true := by
    rw [Bool.and_eq_true, Bool.and_eq_true]
    exact ⟨⟨h1, h2⟩, h3⟩
  have hne : ((S.evaluations.getD []).filter
      (·.evaluation_id == eid)).isEmpty = false := by
    rcases hl : (S.evaluations.getD []).filter (·.evaluation_id == eid) with
      _ | ⟨x, xs⟩
    · exact absurd hl hfound
    · rw [hl]
      rfl
  constructor
  · intro hlen
    have hlen' : ((reconstructedFor S eid).length == 1) = false := by
      rw [Bool.eq_false_iff]
      intro h
      exact hlen (by simpa using h)
    refine ⟨?_, rfl⟩
    unfold get_evaluation
    rw [hcond, if_pos rfl, hne]
    simp only [Bool.false_eq_true, if_false]
    rw [show dataframes_to_evaluations
        ((S.evaluations.getD []).filter (·.evaluation_id == eid))
        (S.metrics.getD []) (S.assessments.getD [])
        = reconstructedFor S eid from rfl, hlen']
    simp
  · intro ent hent
    have hlen : ((reconstructedFor S eid).length == 1) = true := by
      rw [hent]
      rfl
    unfold get_evaluation
    rw [hcond, if_pos rfl, hne]
    simp only [Bool.false_eq_true, if_false]
    rw [show dataframes_to_evaluations
        ((S.evaluations.getD []).filter (·.evaluation_id == eid))
        (S.metrics.getD []) (S.assessments.getD [])
        = reconstructedFor S eid from rfl, hlen, hent]
    simp

/-- A corrupted store: two evaluations-table rows share the id `e1`. -/
def dupStore : RunStore :=
  { evaluations := some [sampleEvaluationRow, sampleEvaluationRow],
    metrics := some [], assessments := some [] }

/-- Witness for C8: the duplicate-row store yields an Integrity error
reporting count 2; the well-formed store returns the single record. -/
theorem get_evaluation_single_reconstruction_witness :
    ((get_evaluation dupStore "e1").1 = .error (.reconstructionCount 2)
      ∧ Err.errorCode (.reconstructionCount 2) = some .INTERNAL_ERROR)
    ∧ (get_evaluation sampleStore "e1").1
        = .ok { row := sampleEvaluationRow, metrics := [],
                assessments := sampleDf } := by
  constructor
  · have h := (get_evaluation_single_reconstruction dupStore "e1" rfl rfl rfl
      (by decide)).1 (by decide)
    exact ⟨h.1, h.2⟩
  · exact (get_evaluation_single_reconstruction sampleStore "e1" rfl rfl rfl
      (by decide)).2
      { row := sampleEvaluationRow, metrics := [], assessments := sampleDf }
      (by decide)

/-! ### Trace lemmas -/

theorem get_evaluation_trace_cases (S : RunStore) (eid : String) :
    (get_evaluation S eid).2 = [.listArtifacts]
    ∨ (get_evaluation S eid).2 = [.listArtifacts, .readEvaluations]
    ∨ (get_evaluation S eid).2
        = [.listArtifacts, .readEvaluations, .readMetrics, .readAssessments,
           .reconstruct] := by
  unfold get_evaluation
  split
  · split
    · exact Or.inr (Or.inl rfl)
    · split
      · exact Or.inr (Or.inr rfl)
      · exact Or.inr (Or.inr rfl)
  · exact Or.inl rfl

/-- Every collaborator interaction of `get_evaluation` is a read: no table
write, no stats computation, no metric-batch log. -/
theorem get_evaluation_trace_benign (S : RunStore) (eid : String) :
    ∀ e ∈ (get_evaluation S eid).2, e.isWrite = false
      ∧ (∀ n, e.isStatsFor n = false) ∧ (∀ n, e.isBatchFor n = false) := by
  intro e he
  rcases get_evaluation_trace_cases S eid with h | h | h <;> rw [h] at he <;>
    fin_cases he <;>
    exact ⟨rfl, fun n => rfl, fun n => rfl⟩

theorem statsEvents_no_write (df : List AssessmentRow) (names : List String) :
    ∀ e ∈ statsEvents df names, e.isWrite = false := by
  induction names with
  | nil => simp [statsEvents]
  | cons m rest ih =>
      intro e he
      rw [statsEvents, List.mem_append] at he
      rcases he with he | he
      · rcases List.mem_cons.mp he with rfl | he
        · rfl
        · rcases List.mem_map.mp he with ⟨g, hg, rfl⟩
          rfl
      · exact ih e he

theorem statsEvents_countP_statsFor (df : List AssessmentRow)
    (names : List String) (hnd : names.Nodup) (n : String) :
    (statsEvents df names).countP (Ev.isStatsFor n)
      = if n ∈ names then 1 else 0 := by
  induction names with
  | nil => simp [statsEvents]
  | cons m rest ih =>
      rw [List.nodup_cons] at hnd
      have hz : ((compute_assessment_stats_by_source df m).map fun g =>
          Ev.logMetricBatch m g.1 g.2).countP (Ev.isStatsFor n) = 0 := by
        rw [List.countP_eq_zero]
        intro e he
        rcases List.mem_map.mp he with ⟨g, hg, rfl⟩
        simp [Ev.isStatsFor]
      rw [statsEvents, List.countP_append, List.countP_cons, hz, ih hnd.2]
      by_cases hmn : m = n
      · subst hmn
        simp [Ev.isStatsFor, hnd.1]
      · simp [Ev.isStatsFor, hmn, Ne.symm hmn]

theorem statsEvents_countP_batchFor (df : List AssessmentRow)
    (names : List String) (hnd : names.Nodup) (n : String) :
    (statsEvents df names).countP (Ev.isBatchFor n)
      = if n ∈ names
        then (compute_assessment_stats_by_source df n).length else 0 := by
  induction names with
  | nil => simp [statsEvents]
  | cons m rest ih =>
      rw [List.nodup_cons] at hnd
      rw [statsEvents, List.countP_append, List.countP_cons, ih hnd.2]
      by_cases hmn : m = n
      · subst hmn
        have hfull : ((compute_assessment_stats_by_source df m).map fun g =>
            Ev.logMetricBatch m g.1 g.2).countP (Ev.isBatchFor m)
            = (compute_assessment_stats_by_source df m).length := by
          rw [show (compute_assessment_stats_by_source df m).length
              = ((compute_assessment_stats_by_source df m).map fun g =>
                  Ev.logMetricBatch m g.1 g.2).length from
              (List.length_map _ _).symm]
          rw [List.countP_eq_length]
          intro e he
          rcases List.mem_map.mp he with ⟨g, hg, rfl⟩
          simp [Ev.isBatchFor]
        rw [hfull]
        simp [Ev.isBatchFor, hnd.1]
      · have hz : ((compute_assessment_stats_by_source df m).map fun g =>
            Ev.logMetricBatch m g.1 g.2).countP (Ev.isBatchFor n) = 0 := by
          rw [List.countP_eq_zero]
          intro e he
          rcases List.mem_map.mp he with ⟨g, hg, rfl⟩
          simp [Ev.isBatchFor, hmn]
        rw [hz]
        simp [Ev.isBatchFor, hmn, Ne.symm hmn]

/-- The number of per-source stat groups for a name is the number of distinct
sources among the rows carrying that name. -/
theorem compute_stats_length (df : List AssessmentRow) (n : String) :
    (compute_assessment_stats_by_source df n).length
      = (uniqueFirst ((df.filter (·.name == n)).map (·.source))).length := by
  unfold compute_assessment_stats_by_source
  rw [List.length_map]

theorem map_name_toRow (objs : List Assessment) (eid : String) :
    (objs.map (·.toRow eid)).map (·.name) = objs.map (·.name) := by
  rw [List.map_map]
  rfl

/-! ### Structure of successful and failing `log_assessments` runs -/

theorem except_cases {α β : Type} (x : Except α β) :
    (∃ b, x = .ok b) ∨ ∃ a, x = .error a := by
  cases x with
  | ok b => exact Or.inl ⟨b, rfl⟩
  | error a => exact Or.inr ⟨a, rfl⟩

theorem log_assessments_ok_spec (S : RunStore) (eid : String)
    (arg : AssessmentsArg) (h : (log_assessments S eid arg).1 = .ok ()) :
    ∃ objs updated_df,
      normalize_log_assessments arg = .ok objs
      ∧ foldMerge (S.assessments.getD []) (objs.map (·.toRow eid)) eid
          = .ok updated_df
      ∧ log_assessments S eid arg
          = (.ok (), { S with assessments := some updated_df },
             (get_evaluation S eid).2 ++ [.readAssessments]
               ++ statsEvents updated_df
                   (uniqueFirst ((objs.map (·.toRow eid)).map (·.name)))
               ++ [.writeAssessments updated_df]) := by
  rcases hge : get_evaluation S eid with ⟨res, tr⟩
  unfold log_assessments at h ⊢
  rw [hge] at h ⊢
  rcases res with e | v
  · simp at h
  · dsimp only at h ⊢
    rcases except_cases (normalize_log_assessments arg) with ⟨objs, hn⟩
      | ⟨e, hn⟩
    · rw [hn] at h ⊢
      dsimp only at h ⊢
      rcases except_cases (foldMerge (S.assessments.getD [])
          (objs.map (·.toRow eid)) eid) with ⟨updated_df, hf⟩ | ⟨e, hf⟩
      · rw [hf] at h ⊢
        dsimp only at h ⊢
        exact ⟨objs, updated_df, rfl, hf, rfl⟩
      · rw [hf] at h
        simp at h
    · rw [hn] at h
      simp at h

/-! ### Claim C7 -/

/-- C7: `log_assessments` verifies the target evaluation exists first — its
effect trace begins with the full `get_evaluation` trace, and when that
verification fails the call returns the verification error having performed
nothing else and leaving the store unchanged; in particular a nonexistent
evaluation id yields `RESOURCE_DOES_NOT_EXIST` with no write performed. -/
theorem log_assessments_verifies_evaluation_first (S : RunStore)
    (eid : String) (arg : AssessmentsArg) :
    (∃ rest, (log_assessments S eid arg).2.2
        = (get_evaluation S eid).2 ++ rest)
    ∧ (∀ e, (get_evaluation S eid).1 = .error e →
        log_assessments S eid arg = (.error e, S, (get_evaluation S eid).2))
    ∧ (S.evaluations.isSome = true → S.metrics.isSome = true →
       S.assessments.isSome = true →
       (S.evaluations.getD []).filter (·.evaluation_id == eid) = [] →
       (log_assessments S eid arg).1 = .error .evaluationNotFound
       ∧ Err.errorCode .evaluationNotFound = some .RESOURCE_DOES_NOT_EXIST
       ∧ (log_assessments S eid arg).2.1 = S
       ∧ ∀ e ∈ (log_assessments S eid arg).2.2, e.isWrite = false) := by
  have hfirst : ∃ rest, (log_assessments S eid arg).2.2
      = (get_evaluation S eid).2 ++ rest := by
    rcases hge : get_evaluation S eid with ⟨res, tr⟩
    unfold log_assessments
    rw [hge]
    rcases res with e | v
    · exact ⟨[], by simp⟩
    · dsimp only
      rcases except_cases (normalize_log_assessments arg) with ⟨objs, hn⟩
        | ⟨e, hn⟩
      · rw [hn]
        dsimp only
        rcases except_cases (foldMerge (S.assessments.getD [])
            (objs.map (·.toRow eid)) eid) with ⟨updated_df, hf⟩ | ⟨e, hf⟩
        · rw [hf]
          refine ⟨[.readAssessments]
            ++ statsEvents updated_df
                (uniqueFirst ((objs.map (·.toRow eid)).map (·.name)))
            ++ [.writeAssessments updated_df], ?_⟩
          simp [List.append_assoc]
        · rw [hf]
          exact ⟨[.readAssessments], by simp⟩
      · rw [hn]
        exact ⟨[], by simp⟩
  have herr : ∀ e, (get_evaluation S eid).1 = .error e →
      log_assessments S eid arg
        = (.error e, S, (get_evaluation S eid).2) := by
    intro e he
    rcases hge : get_evaluation S eid with ⟨res, tr⟩
    rw [hge] at he
    simp only at he
    subst he
    unfold log_assessments
    rw [hge]
  refine ⟨hfirst, herr, ?_⟩
  intro h1 h2 h3 hflt
  have hcond : (S.evaluations.isSome && S.metrics.isSome
      && S.assessments.isSome) = true := by
    rw [Bool.and_eq_true, Bool.and_eq_true]
    exact ⟨⟨h1, h2⟩, h3⟩
  have hgeq : get_evaluation S eid
      = (.error .evaluationNotFound, [.listArtifacts, .readEvaluations]) := by
    unfold get_evaluation
    rw [hcond, if_pos rfl, hflt]
    simp
  have hla := herr .evaluationNotFound (by rw [hgeq])
  refine ⟨by rw [hla], rfl, by rw [hla], ?_⟩
  intro e he
  rw [hla] at he
  simp only at he
  rw [hgeq] at he
  fin_cases he <;> rfl

/-- Witness for C7 on the concrete store and a nonexistent evaluation id. -/
theorem log_assessments_verifies_evaluation_first_witness :
    (∃ rest,
      (log_assessments sampleStore "nope" (.single boolAssessment)).2.2
        = (get_evaluation sampleStore "nope").2 ++ rest)
    ∧ log_assessments sampleStore "nope" (.single boolAssessment)
        = (.error .evaluationNotFound, sampleStore,
           (get_evaluation sampleStore "nope").2)
    ∧ (log_assessments sampleStore "nope" (.single boolAssessment)).2.1
        = sampleStore :=
  ⟨(log_assessments_verifies_evaluation_first sampleStore "nope"
      (.single boolAssessment)).1,
   (log_assessments_verifies_evaluation_first sampleStore "nope"
      (.single boolAssessment)).2.1 .evaluationNotFound rfl,
   ((log_assessments_verifies_evaluation_first sampleStore "nope"
      (.single boolAssessment)).2.2 rfl rfl rfl (by decide)).2.2.1⟩

/-! ### Claim C9 -/

/-- C9: each write invokes the stats aggregator exactly once per distinct
assessment name touched by the write — not once per assessment row — and for
each such name it logs one metric batch per distinct source among the rows of
that name in the freshly written table.  Stated for both `log_assessments`
(touched names = the batch's names) and `log_evaluations` (touched names =
the names of the new assessments table). -/
theorem stats_once_per_touched_name (S : RunStore) (eid : String)
    (arg : AssessmentsArg) (T : RunStore) (run_id : String)
    (evaluations : List Evaluation) (ids : List String)
    (hA : (log_assessments S eid arg).1 = .ok ())
    (hB : batchConsistent (evaluations.flatMap (·.assessments)) = true) :
    (∃ objs updated_df,
      normalize_log_assessments arg = .ok objs
      ∧ (log_assessments S eid arg).2.1.assessments = some updated_df
      ∧ ∀ n,
          (log_assessments S eid arg).2.2.countP (Ev.isStatsFor n)
            = (if n ∈ objs.map (·.name) then 1 else 0)
          ∧ (log_assessments S eid arg).2.2.countP (Ev.isBatchFor n)
            = (if n ∈ objs.map (·.name)
               then (uniqueFirst
                 ((updated_df.filter (·.name == n)).map (·.source))).length
               else 0))
    ∧ ∀ n,
        (log_evaluations T run_id evaluations ids).2.2.countP
            (Ev.isStatsFor n)
          = (if n ∈ (logEvaluationsTables run_id evaluations ids).2.2.map
                (·.name) then 1 else 0)
        ∧ (log_evaluations T run_id evaluations ids).2.2.countP
            (Ev.isBatchFor n)
          = (if n ∈ (logEvaluationsTables run_id evaluations ids).2.2.map
                (·.name)
             then (uniqueFirst
               (((logEvaluationsTables run_id evaluations ids).2.2.filter
                 (·.name == n)).map (·.source))).length
             else 0) := by
  constructor
  · obtain ⟨objs, updated_df, hn, hf, heq⟩ :=
      log_assessments_ok_spec S eid arg hA
    refine ⟨objs, updated_df, hn, by rw [heq], ?_⟩
    intro n
    rw [heq]
    dsimp only
    have hz1 : (get_evaluation S eid).2.countP (Ev.isStatsFor n) = 0 :=
      List.countP_eq_zero.mpr fun e he => by
        rw [(get_evaluation_trace_benign S eid e he).2.1 n]
        simp
    have hz2 : (get_evaluation S eid).2.countP (Ev.isBatchFor n) = 0 :=
      List.countP_eq_zero.mpr fun e he => by
        rw [(get_evaluation_trace_benign S eid e he).2.2 n]
        simp
    have hmem : (n ∈ uniqueFirst ((objs.map (·.toRow eid)).map (·.name)))
        ↔ n ∈ objs.map (·.name) := by
      rw [mem_uniqueFirst, map_name_toRow]
    have hr1 : List.countP (Ev.isStatsFor n) [Ev.readAssessments] = 0 := rfl
    have hr2 : List.countP (Ev.isBatchFor n) [Ev.readAssessments] = 0 := rfl
    have hw1 : List.countP (Ev.isStatsFor n)
        [Ev.writeAssessments updated_df] = 0 := rfl
    have hw2 : List.countP (Ev.isBatchFor n)
        [Ev.writeAssessments updated_df] = 0 := rfl
    constructor
    · rw [List.countP_append, List.countP_append, List.countP_append, hz1,
        statsEvents_countP_statsFor updated_df _ (nodup_uniqueFirst _) n,
        hr1, hw1, Nat.zero_add, Nat.add_zero]
      exact if_congr hmem rfl rfl
    · rw [List.countP_append, List.countP_append, List.countP_append, hz2,
        statsEvents_countP_batchFor updated_df _ (nodup_uniqueFirst _) n,
        compute_stats_length, hr2, hw2, Nat.zero_add, Nat.add_zero]
      exact if_congr hmem rfl rfl
  · intro n
    have hv : verifyEvaluationBatch evaluations = .ok () := by
      unfold verifyEvaluationBatch
      rw [hB]
      simp
    unfold log_evaluations
    rw [hv]
    dsimp only
    have hw1 : List.countP (Ev.isStatsFor n)
        [Ev.writeEvaluations (logEvaluationsTables run_id evaluations ids).1,
         Ev.writeMetrics (logEvaluationsTables run_id evaluations ids).2.1,
         Ev.writeAssessments
           (logEvaluationsTables run_id evaluations ids).2.2] = 0 := rfl
    have hw2 : List.countP (Ev.isBatchFor n)
        [Ev.writeEvaluations (logEvaluationsTables run_id evaluations ids).1,
         Ev.writeMetrics (logEvaluationsTables run_id evaluations ids).2.1,
         Ev.writeAssessments
           (logEvaluationsTables run_id evaluations ids).2.2] = 0 := rfl
    constructor
    · rw [List.countP_append,
        statsEvents_countP_statsFor _ _ (nodup_uniqueFirst _) n, hw1,
        Nat.zero_add]
      exact if_congr (mem_uniqueFirst _ _) rfl rfl
    · rw [List.countP_append,
        statsEvents_countP_batchFor _ _ (nodup_uniqueFirst _) n,
        compute_stats_length, hw2, Nat.zero_add]
      exact if_congr (mem_uniqueFirst _ _) rfl rfl

/-- Witness for C9: a concrete successful `log_assessments` call and a
concrete valid `log_evaluations` batch. -/
theorem stats_once_per_touched_name_witness :
    (log_assessments sampleStore "e1" (.single judgeNumAssessment)).1
        = .ok ()
    ∧ batchConsistent ([mixedEvalA].flatMap (·.assessments)) = true
    ∧ ((∃ objs updated_df,
        normalize_log_assessments (.single judgeNumAssessment) = .ok objs
        ∧ (log_assessments sampleStore "e1"
            (.single judgeNumAssessment)).2.1.assessments = some updated_df
        ∧ ∀ n,
            (log_assessments sampleStore "e1"
                (.single judgeNumAssessment)).2.2.countP (Ev.isStatsFor n)
              = (if n ∈ objs.map (·.name) then 1 else 0)
            ∧ (log_assessments sampleStore "e1"
                (.single judgeNumAssessment)).2.2.countP (Ev.isBatchFor n)
              = (if n ∈ objs.map (·.name)
                 then (uniqueFirst
                   ((updated_df.filter (·.name == n)).map (·.source))).length
                 else 0))
      ∧ ∀ n,
          (log_evaluations emptyStore "r1" [mixedEvalA] ["id1"]).2.2.countP
              (Ev.isStatsFor n)
            = (if n ∈ (logEvaluationsTables "r1" [mixedEvalA] ["id1"]).2.2.map
                  (·.name) then 1 else 0)
          ∧ (log_evaluations emptyStore "r1" [mixedEvalA] ["id1"]).2.2.countP
              (Ev.isBatchFor n)
            = (if n ∈ (logEvaluationsTables "r1" [mixedEvalA] ["id1"]).2.2.map
                  (·.name)
               then (uniqueFirst
                 (((logEvaluationsTables "r1" [mixedEvalA] ["id1"]).2.2.filter
                   (·.name == n)).map (·.source))).length
               else 0)) :=
  ⟨rfl, rfl,
   stats_once_per_touched_name sampleStore "e1" (.single judgeNumAssessment)
     emptyStore "r1" [mixedEvalA] ["id1"] rfl rfl⟩

/-! ### Claim C10 -/

/-- C10: on every successful `log_assessments` path, the per-source stats are
computed from the updated in-memory table and logged strictly before that
same table is persisted — the trace is a write-free prefix (containing all
metric-batch logs only in the stats segment computed from `updated_df`)
followed by the single `writeAssessments updated_df` event, which also
becomes the stored table. -/
theorem stats_logged_before_persist (S : RunStore) (eid : String)
    (arg : AssessmentsArg)
    (h : (log_assessments S eid arg).1 = .ok ()) :
    ∃ updated_df names tr0,
      (log_assessments S eid arg).2.2
        = tr0 ++ statsEvents updated_df names
            ++ [.writeAssessments updated_df]
      ∧ (log_assessments S eid arg).2.1.assessments = some updated_df
      ∧ (∀ e ∈ tr0, e.isWrite = false ∧ ∀ n, e.isBatchFor n = false)
      ∧ ∀ e ∈ statsEvents updated_df names, e.isWrite = false := by
  obtain ⟨objs, updated_df, hn, hf, heq⟩ := log_assessments_ok_spec S eid arg h
  refine ⟨updated_df, uniqueFirst ((objs.map (·.toRow eid)).map (·.name)),
    (get_evaluation S eid).2 ++ [Ev.readAssessments], ?_, by rw [heq], ?_,
    statsEvents_no_write _ _⟩
  · rw [heq]
  · intro e he
    rcases List.mem_append.mp he with he | he
    · obtain ⟨hw, _, hb⟩ := get_evaluation_trace_benign S eid e he
      exact ⟨hw, hb⟩
    · rcases List.mem_singleton.mp he with rfl
      exact ⟨rfl, fun n => rfl⟩

/-- Witness for C10 on a concrete successful `log_assessments` call. -/
theorem stats_logged_before_persist_witness :
    (log_assessments sampleStore "e1" (.single judgeNumAssessment)).1
        = .ok ()
    ∧ ∃ updated_df names tr0,
      (log_assessments sampleStore "e1"
          (.single judgeNumAssessment)).2.2
        = tr0 ++ statsEvents updated_df names
            ++ [.writeAssessments updated_df]
      ∧ (log_assessments sampleStore "e1"
          (.single judgeNumAssessment)).2.1.assessments = some updated_df
      ∧ (∀ e ∈ tr0, e.isWrite = false ∧ ∀ n, e.isBatchFor n = false)
      ∧ ∀ e ∈ statsEvents updated_df names, e.isWrite = false :=
  ⟨rfl, stats_logged_before_persist sampleStore "e1"
    (.single judgeNumAssessment) rfl⟩

end MlflowEval
